import Mathlib

/-!
Verification development for the virtual sales agent order core.

The Python source is shallowly embedded: the SQLite store is a record of
lists (products, orders, order lines), every tool is a pure function from
its arguments and the store to a result (and, for the mutation, a new
store), SQL numeric values are exact rationals, and a raised Python
exception is an `Except.error`. A transaction rollback is modelled by
returning the store as it was at `BEGIN`.
-/

/-- A row of the `products` table (schema of db_manager / spec section 6).
`Quantity` is an `Int` so that the non-negativity of stock is a statement,
not a typing artifact. -/
structure Product where
  ProductId : Nat
  ProductName : String
  Category : String
  Description : String
  Price : ℚ
  Quantity : Int
deriving DecidableEq, Repr

/-- A row of the `orders` table. -/
structure Order where
  OrderId : Nat
  CustomerId : String
  OrderDate : String
  Status : String
deriving DecidableEq, Repr

/-- A row of the `orders_details` table (one order line). -/
structure OrderDetail where
  OrderId : Nat
  ProductId : Nat
  Quantity : Int
  UnitPrice : ℚ
deriving DecidableEq, Repr

/-- The whole SQLite store.  `nextOrderId` models the rowid counter that
`cursor.lastrowid` reads after the `INSERT INTO orders`. -/
structure Store where
  products : List Product
  orders : List Order
  orderDetails : List OrderDetail
  nextOrderId : Nat
deriving DecidableEq, Repr

/-- One element of the `products` argument of `create_order`:
the dict `\x7b"ProductName": ..., "Quantity": ...\x7d`. -/
structure OrderItem where
  ProductName : String
  Quantity : Int
deriving DecidableEq, Repr

/-- One element of the `ordered_products` list built by `create_order`. -/
structure OrderedProduct where
  name : String
  quantity : Int
  unit_price : ℚ
deriving DecidableEq, Repr

/-- The value `create_order` hands back to its caller.
`ok` and `err` are the two structured dicts tagged with a `status` key;
`rawValueError` models line 157 of tools.py, which returns a bare
`ValueError` instance (not a dict, no `status` key) when no customer id
is configured. -/
inductive ToolResult where
  | ok (order_id : Nat) (total_amount : ℚ) (products : List OrderedProduct)
      (customer_id : String)
  | err (message : String) (customer_id : String)
  | rawValueError (message : String)
deriving DecidableEq, Repr

/-- Whether a `ToolResult` is one of the structured dicts tagged with a
`status` key (success or error), as the tool contract of spec section 6
requires. -/
def ToolResult.isStructured : ToolResult → Bool
  | .ok _ _ _ _ => true
  | .err _ _ => true
  | .rawValueError _ => false

/-- Whether a `ToolResult` is the success dict. -/
def ToolResult.isOk : ToolResult → Bool
  | .ok _ _ _ _ => true
  | _ => false

/-- The `order_id` field of a `create_order` success dict. -/
def ToolResult.orderId? : ToolResult → Option Nat
  | .ok oid _ _ _ => some oid
  | _ => none

/-- The `total_amount` field of a `create_order` success dict. -/
def ToolResult.total? : ToolResult → Option ℚ
  | .ok _ total _ _ => some total
  | _ => none

/-- The `customer_id` field of a `create_order` success dict. -/
def ToolResult.customerId? : ToolResult → Option String
  | .ok _ _ _ c => some c
  | _ => none

/-- ASCII lowercasing of a string as a character list, the effect of the
SQL `LOWER` (which folds ASCII letters only). -/
def lowerChars (s : String) : List Char := s.toList.map Char.toLower

/-- `LOWER(ProductName) = LOWER(?)`: the case-insensitive product lookup,
`fetchone` takes the first matching row. -/
def findProductByName (name : String) (ps : List Product) : Option Product :=
  ps.find? (fun p => lowerChars p.ProductName == lowerChars name)

/-- The per-line loop of `create_order` (tools.py lines 177-214): look the
product up case-insensitively, abort on a missing product or on stock below
the requested quantity, otherwise insert the order line at the captured
unit price, decrement the stock, and accumulate the Decimal running total.
`Except.error` carries the `ValueError` message that the surrounding
`except` block turns into the structured error dict. -/
def processLines (oid : Nat) :
    List OrderItem → Store → ℚ → List OrderedProduct →
    Except String (Store × ℚ × List OrderedProduct)
  | [], st, total, acc => .ok (st, total, acc)
  | item :: rest, st, total, acc =>
    match findProductByName item.ProductName st.products with
    | none => .error ("Product not found: " ++ item.ProductName)
    | some product =>
      if product.Quantity < item.Quantity then
        .error ("Insufficient stock for " ++ item.ProductName)
      else
        let detail : OrderDetail :=
          ⟨oid, product.ProductId, item.Quantity, product.Price⟩
        let st' : Store :=
          { st with
            orderDetails := st.orderDetails ++ [detail],
            products := st.products.map (fun p =>
              if p.ProductId = product.ProductId then
                { p with Quantity := p.Quantity - item.Quantity }
              else p) }
        processLines oid rest st'
          (total + product.Price * (item.Quantity : ℚ))
          (acc ++ [⟨item.ProductName, item.Quantity, product.Price⟩])

/-- Opening the transaction: `INSERT INTO orders` with status `Pending`
(tools.py lines 166-170); `lastrowid` becomes the order id. -/
def openPendingOrder (c now : String) (st : Store) : Store :=
  { st with
    orders := st.orders ++ [⟨st.nextOrderId, c, now, "Pending"⟩],
    nextOrderId := st.nextOrderId + 1 }

/-- `create_order` (tools.py lines 138-233).  `customer_id = none` models a
missing `customer_id` key and `some ""` an empty one; both are falsy in
Python, and the function then returns a bare `ValueError` object with no
store access.  Otherwise it opens a transaction, inserts a `Pending` order
row, runs the per-line loop, and on success commits (the second component
is the new store) while on any line failure it rolls back (the second
component is the store as given). `now` stands for
`datetime.now().isoformat()`. -/
def create_order (customer_id : Option String) (products : List OrderItem)
    (now : String) (st : Store) : ToolResult × Store :=
  match customer_id with
  | none => (.rawValueError "No customer ID configured.", st)
  | some c =>
    if c = "" then (.rawValueError "No customer ID configured.", st)
    else
      let oid := st.nextOrderId
      match processLines oid products (openPendingOrder c now st) 0 [] with
      | .error m => (.err m c, st)
      | .ok (st2, total, lines) => (.ok oid total lines c, st2)

/-- Boolean prefix test on character lists (helper for the SQL `LIKE`). -/
def isPrefixList : List Char → List Char → Bool
  | [], _ => true
  | _ :: _, [] => false
  | a :: as, b :: bs => a == b && isPrefixList as bs

/-- Boolean substring test on character lists. -/
def containsList (pat : List Char) : List Char → Bool
  | [] => isPrefixList pat []
  | b :: bs => isPrefixList pat (b :: bs) || containsList pat bs

/-- `LOWER(field) LIKE ?` with the parameter `%query.lower()%`:
case-insensitive substring match. -/
def likeMatch (query field : String) : Bool :=
  containsList (lowerChars query) (lowerChars field)

/-- The WHERE clause of the `search_products` SELECT, minus the
`Quantity > 0` conjunct: each filter is appended only when its argument is
truthy (a missing or empty string skips the text filters; a missing number
skips the price bounds). -/
def matchesFilters (query category : Option String) (min_price max_price : Option ℚ)
    (p : Product) : Bool :=
  (match query with
   | none => true
   | some q =>
     if q = "" then true
     else likeMatch q p.ProductName || likeMatch q p.Description) &&
  (match category with
   | none => true
   | some c => if c = "" then true else lowerChars p.Category == lowerChars c) &&
  (match min_price with
   | none => true
   | some mn => mn ≤ p.Price) &&
  (match max_price with
   | none => true
   | some mx => p.Price ≤ mx)

/-- Round-half-even to an integer, as Python `round` does. -/
def roundHalfEven (x : ℚ) : ℤ :=
  let f := Int.floor x
  if x - f < 1 / 2 then f
  else if 1 / 2 < x - f then f + 1
  else if f % 2 = 0 then f else f + 1

/-- `round(value, 2)`. -/
def round2 (x : ℚ) : ℚ := (roundHalfEven (x * 100) : ℚ) / 100

/-- `SELECT MIN(Price), MAX(Price), AVG(Price)` over a list of prices:
the SQL aggregates of an empty population are all NULL, modelled by
`none`. -/
def price_stats (l : List ℚ) : Option (ℚ × ℚ × ℚ) :=
  match l.min?, l.max? with
  | some mn, some mx => some (mn, mx, l.sum / (l.length : ℚ))
  | _, _ => none

/-- A product dict of the `search_products` result list. -/
structure ProductOut where
  product_id : String
  name : String
  category : String
  description : String
  price : ℚ
  stock : Int
deriving DecidableEq, Repr

/-- A per-category count of the `search_products` metadata. -/
structure CategoryCount where
  name : String
  product_count : Nat
deriving DecidableEq, Repr

/-- The `price_range` metadata block of `search_products`. -/
structure PriceRange where
  min : ℚ
  max : ℚ
  average : ℚ
deriving DecidableEq, Repr

/-- The structured success dict of `search_products`. -/
structure SearchResult where
  products : List ProductOut
  total_results : Nat
  categories : List CategoryCount
  price_range : PriceRange
deriving DecidableEq, Repr

/-- `GROUP BY Category` with `COUNT(*)` over the in-stock rows. -/
def categoryCounts (ps : List Product) : List CategoryCount :=
  (ps.map (·.Category)).dedup.map
    (fun c => ⟨c, (ps.filter (fun p => p.Category = c)).length⟩)

/-- `search_products` (tools.py lines 30-134).  The result rows are the
in-stock products passing the filters; the metadata is computed over the
whole in-stock population.  When that population is empty the price
aggregates come back NULL and `float(None)` raises a `TypeError` that no
handler catches, modelled as `Except.error`. -/
def search_products (query category : Option String)
    (min_price max_price : Option ℚ) (st : Store) :
    Except String SearchResult :=
  let in_stock := st.products.filter (fun p => 0 < p.Quantity)
  let filtered := in_stock.filter (matchesFilters query category min_price max_price)
  match price_stats (in_stock.map (·.Price)) with
  | none => .error "TypeError: float() argument must be a string or a real number, not NoneType"
  | some (mn, mx, avg) =>
    .ok
      { products := filtered.map (fun p =>
          ⟨toString p.ProductId, p.ProductName, p.Category, p.Description,
           p.Price, p.Quantity⟩),
        total_results := filtered.length,
        categories := categoryCounts in_stock,
        price_range := ⟨mn, mx, round2 avg⟩ }

/-- The single-order row assembled by the `check_order_status` SELECT:
the order columns, the GROUP_CONCAT product summary and the line total. -/
structure OrderStatusRow where
  order_id : Nat
  order_date : String
  order_status : String
  products_summary : String
  total_amount : ℚ
deriving DecidableEq, Repr

/-- The structured result of `check_order_status` for a given order id:
either the success dict with the order details, or the error dict
`\x7bstatus: error, message: Order not found, customer_id, order_id\x7d`
carrying no order details. -/
inductive StatusResult where
  | found (row : OrderStatusRow) (customer_id : String)
  | notFound (customer_id : String) (order_id : Nat)
deriving DecidableEq, Repr

/-- The JOIN of `orders_details` with `products` restricted to one order. -/
def joinRows (oid : Nat) (st : Store) : List (OrderDetail × Product) :=
  (st.orderDetails.filter (fun d => d.OrderId == oid)).flatMap
    (fun d => (st.products.filter (fun p => p.ProductId == d.ProductId)).map
      (fun p => (d, p)))

/-- `GROUP_CONCAT(p.ProductName || ' (x' || od.Quantity || ')')`. -/
def summaryOf (rows : List (OrderDetail × Product)) : String :=
  String.intercalate "," (rows.map (fun r =>
    r.2.ProductName ++ " (x" ++ toString r.1.Quantity ++ ")"))

/-- `SUM(od.Quantity * od.UnitPrice)` over the joined rows. -/
def totalOf (rows : List (OrderDetail × Product)) : ℚ :=
  (rows.map (fun r => (r.1.Quantity : ℚ) * r.1.UnitPrice)).sum

/-- `check_order_status` (tools.py lines 237-291), specific-order branch
(`order_id` given).  A missing customer id raises a `ValueError`
(`Except.error`).  The SELECT joins the order with its lines and products
and filters on `o.OrderId = ? AND o.CustomerId = ?`; `fetchone` yields a
row only when such an order exists and the join is non-empty, otherwise
the structured not-found error dict is returned.  The function is pure:
no store is returned because the code runs no mutating statement. -/
def check_order_status (customer_id : Option String) (order_id : Nat)
    (st : Store) : Except String StatusResult :=
  match customer_id with
  | none => .error "No customer ID configured."
  | some c =>
    if c = "" then .error "No customer ID configured."
    else
      match st.orders.find? (fun o => o.OrderId == order_id && o.CustomerId == c) with
      | none => .ok (.notFound c order_id)
      | some o =>
        let rows := joinRows order_id st
        if rows.isEmpty then .ok (.notFound c order_id)
        else .ok (.found ⟨o.OrderId, o.OrderDate, o.Status, summaryOf rows,
                          totalOf rows⟩ c)

/-- The routing targets of the conditional edge out of the assistant node
(graph.py lines 165-167): END, the safe tool node, or the sensitive tool
node. -/
inductive RouteTarget where
  | endTurn
  | safeTools
  | sensitiveTools
deriving DecidableEq, Repr

/-- `sensitive_tool_names` (graph.py line 136): the names of the tools in
the `sensitive_tools` list, i.e. exactly `create_order`. -/
def sensitive_tool_names : List String := ["create_order"]

/-- The names of all five tools bound to the assistant
(graph.py lines 124-134). -/
def tool_vocabulary : List String :=
  ["get_available_categories", "search_products",
   "search_products_recommendations", "check_order_status", "create_order"]

/-- `route_tools` (graph.py lines 149-160) as a function of the tool-call
names of the last assistant message: `tools_condition` returns END when
there are none; otherwise the first tool call alone decides between the
sensitive node and the safe node. -/
def route_tools (tool_calls : List String) : RouteTarget :=
  match tool_calls with
  | [] => .endTurn
  | first :: _ =>
    if first ∈ sensitive_tool_names then .sensitiveTools else .safeTools

/-- Modelled from the spec: the resume signal of the Human Confirmation
Gate (spec section 4.2); the resume channel itself lives in the langgraph
framework and the application layer, which are not part of the repository
sources. -/
inductive Signal where
  | approve
  | deny
deriving DecidableEq, Repr

/-- The sensitive action held while the gate is suspended: the
`create_order` call with its original parameters. -/
structure PendingOrder where
  customerId : Option String
  items : List OrderItem
  now : String
deriving DecidableEq, Repr

/-- Modelled from the spec: the gate phase of section 4.2 — `Idle`, or
`AwaitingConfirmation` holding the pending action.  In the source this is
the checkpoint taken by `interrupt_before=["sensitive_tools"]`
(graph.py line 173). -/
inductive GatePhase where
  | idle
  | awaiting (pending : PendingOrder)
deriving DecidableEq, Repr

/-- The orchestrator state: the gate phase, the shared store, and the log
of sensitive actions that actually reached the Tool Execution Layer. -/
structure SysState where
  phase : GatePhase
  store : Store
  executed : List PendingOrder
deriving DecidableEq, Repr

/-- An event of one orchestrator cycle: either the assistant proposes a
message whose tool calls are routed by `route_tools` (carrying the
parameters of a possible `create_order`), or an external resume signal
reaches the suspended gate. -/
inductive Event where
  | propose (tool_calls : List String) (payload : PendingOrder)
  | resume (sig : Signal)
deriving DecidableEq, Repr

/-- Modelled from the spec: the step relation of the orchestrator with the
Human Confirmation Gate of section 4.2.  Routing is the `route_tools`
function of graph.py; the sensitive execution applies `create_order` of
tools.py to the suspended parameters.  Safe tools mutate nothing
(sections 4.3). A proposal routed to the sensitive node suspends the turn
before executing; `approve` runs the pending `create_order` and logs it;
`deny` discards it, leaving the store as it was at suspension. -/
inductive Step : SysState → Event → SysState → Prop
  | safe (calls : List String) (p : PendingOrder) (st : Store)
      (log : List PendingOrder) :
      route_tools calls = .safeTools →
      Step ⟨.idle, st, log⟩ (.propose calls p) ⟨.idle, st, log⟩
  | endTurn (calls : List String) (p : PendingOrder) (st : Store)
      (log : List PendingOrder) :
      route_tools calls = .endTurn →
      Step ⟨.idle, st, log⟩ (.propose calls p) ⟨.idle, st, log⟩
  | suspend (calls : List String) (p : PendingOrder) (st : Store)
      (log : List PendingOrder) :
      route_tools calls = .sensitiveTools →
      Step ⟨.idle, st, log⟩ (.propose calls p) ⟨.awaiting p, st, log⟩
  | approve (p : PendingOrder) (st : Store) (log : List PendingOrder) :
      Step ⟨.awaiting p, st, log⟩ (.resume .approve)
        ⟨.idle, (create_order p.customerId p.items p.now st).2, log ++ [p]⟩
  | deny (p : PendingOrder) (st : Store) (log : List PendingOrder) :
      Step ⟨.awaiting p, st, log⟩ (.resume .deny) ⟨.idle, st, log⟩

/-- A run of the orchestrator: the reflexive-transitive closure of `Step`
recording the list of events. -/
inductive Reaches : SysState → List Event → SysState → Prop
  | nil (s : SysState) : Reaches s [] s
  | cons {s s' s'' : SysState} {e : Event} {es : List Event} :
      Step s e s' → Reaches s' es s'' → Reaches s (e :: es) s''

/-- Whether an error message is the not-found or insufficient-stock message
of one of the requested lines, i.e. whether it describes a failing line of
the request. -/
def describesFailingLine (m : String) (items : List OrderItem) : Bool :=
  items.any (fun item =>
    m == "Product not found: " ++ item.ProductName ||
    m == "Insufficient stock for " ++ item.ProductName)

/-- A small concrete catalog used to evaluate the theorems. -/
def stSmall : Store :=
  { products := [⟨1, "apple", "fruits", "a red apple", 19.99, 5⟩,
                 ⟨2, "banana", "fruits", "yellow", 5.1, 7⟩],
    orders := [], orderDetails := [], nextOrderId := 1 }

/-- A concrete store holding one order that belongs to customer `other`. -/
def stOther : Store :=
  { products := [⟨1, "apple", "fruits", "a red apple", 2, 5⟩],
    orders := [⟨7, "other", "t0", "Pending"⟩],
    orderDetails := [⟨7, 1, 2, 2⟩], nextOrderId := 8 }

/-- A concrete catalog in which every product is out of stock. -/
def stNoStock : Store :=
  { products := [⟨1, "apple", "fruits", "a red apple", 19.99, 0⟩],
    orders := [], orderDetails := [], nextOrderId := 1 }

/-- A concrete pending sensitive action used to evaluate the gate
theorems. -/
def pendSmall : PendingOrder := ⟨some "c1", [⟨"apple", 2⟩], "t0"⟩

/-- Whether every product of a catalog has a non-negative stock quantity. -/
def allStockNonneg (ps : List Product) : Bool :=
  ps.all (fun p => 0 ≤ p.Quantity)

/-- The store `stSmall` after customer `c1` buys two apples: stock
decremented, one order row (still `Pending`), one order line at the
captured unit price. -/
def stSmallAfter : Store :=
  { products := [⟨1, "apple", "fruits", "a red apple", 19.99, 3⟩,
                 ⟨2, "banana", "fruits", "yellow", 5.1, 7⟩],
    orders := [⟨1, "c1", "t0", "Pending"⟩],
    orderDetails := [⟨1, 1, 2, 19.99⟩], nextOrderId := 2 }

/-- Every error of the per-line loop is the not-found or the
insufficient-stock message of one of the requested lines. -/
theorem processLines_error_describes (oid : Nat) :
    ∀ (items : List OrderItem) (st : Store) (total : ℚ)
      (acc : List OrderedProduct) (m : String),
    processLines oid items st total acc = .error m →
    describesFailingLine m items = true := by
  intro items
  induction items with
  | nil =>
    intro st total acc m h
    simp [processLines] at h
  | cons item rest ih =>
    intro st total acc m h
    cases hfind : findProductByName item.ProductName st.products with
    | none =>
      simp only [processLines, hfind] at h
      have hm : "Product not found: " ++ item.ProductName = m :=
        Except.error.inj h
      simp [describesFailingLine, List.any_cons, hm]
    | some product =>
      simp only [processLines, hfind] at h
      by_cases hq : product.Quantity < item.Quantity
      · rw [if_pos hq] at h
        have hm : "Insufficient stock for " ++ item.ProductName = m :=
          Except.error.inj h
        simp [describesFailingLine, List.any_cons, hm]
      · rw [if_neg hq] at h
        have := ih _ _ _ _ h
        simp [describesFailingLine, List.any_cons]
        right
        simpa [describesFailingLine] using this

/-- The inventory update of one line keeps every `ProductId` in place. -/
theorem map_productId_update (ps : List Product) (pid : Nat) (q : Int) :
    (ps.map (fun p =>
      if p.ProductId = pid then { p with Quantity := p.Quantity - q } else p)).map
        Product.ProductId = ps.map Product.ProductId := by
  rw [List.map_map]
  refine List.map_congr_left ?_
  intro p _
  by_cases h : p.ProductId = pid <;> simp [h]

/-- What a successful run of the per-line loop does to the store: orders and
product ids are untouched, the order lines grow by a suffix of new lines,
and the total grows by exactly the sum of quantity times captured unit
price over those new lines. -/
theorem processLines_ok_spec (oid : Nat) :
    ∀ (items : List OrderItem) (st : Store) (total : ℚ)
      (acc : List OrderedProduct) (st2 : Store) (total2 : ℚ)
      (lines2 : List OrderedProduct),
    processLines oid items st total acc = .ok (st2, total2, lines2) →
    st2.orders = st.orders ∧
    st2.products.map Product.ProductId = st.products.map Product.ProductId ∧
    ∃ newD : List OrderDetail,
      st2.orderDetails = st.orderDetails ++ newD ∧
      (∀ d ∈ newD, d.OrderId = oid) ∧
      total2 = total + (newD.map (fun d => (d.Quantity : ℚ) * d.UnitPrice)).sum := by
  intro items
  induction items with
  | nil =>
    intro st total acc st2 total2 lines2 h
    simp only [processLines] at h
    obtain ⟨rfl, rfl, rfl⟩ : st = st2 ∧ total = total2 ∧ acc = lines2 := by
      simpa using Except.ok.inj h
    exact ⟨rfl, rfl, [], by simp⟩
  | cons item rest ih =>
    intro st total acc st2 total2 lines2 h
    cases hfind : findProductByName item.ProductName st.products with
    | none => simp [processLines, hfind] at h
    | some product =>
      simp only [processLines, hfind] at h
      by_cases hq : product.Quantity < item.Quantity
      · rw [if_pos hq] at h
        exact absurd h (by simp)
      · rw [if_neg hq] at h
        obtain ⟨ho, hids, newD, hdet, hoid, htot⟩ := ih _ _ _ _ _ _ h
        refine ⟨ho, ?_, ⟨oid, product.ProductId, item.Quantity, product.Price⟩ :: newD,
          ?_, ?_, ?_⟩
        · rw [hids]
          exact map_productId_update st.products product.ProductId item.Quantity
        · rw [hdet]
          simp
        · intro d hd
          rcases List.mem_cons.mp hd with h1 | h1
          · rw [h1]
          · exact hoid d h1
        · rw [htot]
          simp only [List.map_cons, List.sum_cons]
          ring

/-- A successful run of the per-line loop keeps every stock quantity
non-negative, provided product ids are unique (the primary key of the
`products` table). -/
theorem processLines_ok_stock (oid : Nat) :
    ∀ (items : List OrderItem) (st : Store) (total : ℚ)
      (acc : List OrderedProduct) (st2 : Store) (total2 : ℚ)
      (lines2 : List OrderedProduct),
    processLines oid items st total acc = .ok (st2, total2, lines2) →
    (st.products.map Product.ProductId).Nodup →
    (∀ p ∈ st.products, 0 ≤ p.Quantity) →
    ∀ p ∈ st2.products, 0 ≤ p.Quantity := by
  intro items
  induction items with
  | nil =>
    intro st total acc st2 total2 lines2 h hnd hpos
    obtain ⟨rfl, -, -⟩ : st = st2 ∧ total = total2 ∧ acc = lines2 := by
      simpa [processLines] using h
    exact hpos
  | cons item rest ih =>
    intro st total acc st2 total2 lines2 h hnd hpos
    cases hfind : findProductByName item.ProductName st.products with
    | none => simp [processLines, hfind] at h
    | some product =>
      simp only [processLines, hfind] at h
      by_cases hq : product.Quantity < item.Quantity
      · rw [if_pos hq] at h
        exact absurd h (by simp)
      · rw [if_neg hq] at h
        have hmem : product ∈ st.products :=
          List.mem_of_find?_eq_some hfind
        refine ih _ _ _ _ _ _ h ?_ ?_
        · rw [show (st.products.map (fun p =>
            if p.ProductId = product.ProductId then
              { p with Quantity := p.Quantity - item.Quantity } else p)).map
              Product.ProductId = st.products.map Product.ProductId from
            map_productId_update st.products product.ProductId item.Quantity]
          exact hnd
        · intro p' hp'
          obtain ⟨p, hp, rfl⟩ := List.mem_map.mp hp'
          by_cases hid : p.ProductId = product.ProductId
          · have : p = product := List.inj_on_of_nodup_map hnd hp hmem hid
            subst this
            simp only [if_pos hid]
            simpa using sub_nonneg.mpr (not_lt.mp hq)
          · simp only [if_neg hid]
            exact hpos p hp

/-- C1: when some requested line of a `create_order` call fails (product
name not found by the case-insensitive lookup, or available stock below the
requested quantity), the whole transaction is rolled back — the returned
store is exactly the store at entry, so no order row, no order lines and no
stock decrements from earlier lines persist — and the result is the
structured error dict carrying the failing-line message and the customer
id. -/
theorem create_order_rollback_on_failure (st : Store) (c now m : String)
    (items : List OrderItem) (hc : c ≠ "")
    (hfail : processLines st.nextOrderId items (openPendingOrder c now st) 0 [] =
      .error m) :
    create_order (some c) items now st = (.err m c, st) ∧
    describesFailingLine m items = true := by
  constructor
  · simp only [create_order, if_neg hc, hfail]
  · exact processLines_error_describes _ _ _ _ _ _ hfail

/-- Evaluation of the rollback theorem: `c1` orders a pear that the catalog
does not hold; the call returns the structured not-found error and the
store is unchanged. -/
theorem create_order_rollback_on_failure_witness :
    create_order (some "c1") [⟨"pear", 1⟩] "t0" stSmall =
      (.err "Product not found: pear" "c1", stSmall) ∧
    describesFailingLine "Product not found: pear" [⟨"pear", 1⟩] = true :=
  create_order_rollback_on_failure stSmall "c1" "t0" "Product not found: pear"
    [⟨"pear", 1⟩] (by decide) (by rfl)

/-- C5 (the code, not the claim): a `create_order` call with no customer id
resolved is rejected immediately — the store is returned untouched, so no
transaction is opened — but the returned value is the bare `ValueError`
object of tools.py line 157, not a structured result dict tagged with a
`status` key. -/
theorem create_order_missing_customer_raw (items : List OrderItem)
    (now : String) (st : Store) :
    create_order none items now st =
      (.rawValueError "No customer ID configured.", st) ∧
    (create_order none items now st).1.isStructured = false :=
  ⟨rfl, rfl⟩

/-- C2: a `create_order` call — committed or rolled back — keeps every
stock quantity non-negative, given that every stock quantity was
non-negative before the call (product ids are assumed unique, the primary
key of the `products` table). -/
theorem create_order_preserves_stock_nonneg (customer_id : Option String)
    (items : List OrderItem) (now : String) (st : Store)
    (hnd : (st.products.map Product.ProductId).Nodup)
    (hpos : allStockNonneg st.products = true) :
    allStockNonneg (create_order customer_id items now st).2.products = true := by
  have hpos' : ∀ p ∈ st.products, 0 ≤ p.Quantity := by
    intro p hp
    simpa using (List.all_eq_true.mp hpos) p hp
  rw [allStockNonneg, List.all_eq_true]
  intro p hp
  suffices h : 0 ≤ p.Quantity by simpa using h
  revert p hp
  cases customer_id with
  | none => simpa [create_order] using hpos'
  | some c =>
    by_cases hc : c = ""
    · simpa [create_order, hc] using hpos'
    · cases hp : processLines st.nextOrderId items (openPendingOrder c now st) 0 [] with
      | error m => simpa [create_order, hc, hp] using hpos'
      | ok v =>
        obtain ⟨st2, total2, lines2⟩ := v
        have hres := processLines_ok_stock st.nextOrderId items
          (openPendingOrder c now st) 0 [] st2 total2 lines2 hp
          (by simpa [openPendingOrder] using hnd)
          (by simpa [openPendingOrder] using hpos')
        simpa [create_order, hc, hp] using hres

/-- Evaluation of the stock theorem: after `c1` buys two apples from
`stSmall`, every remaining stock quantity is still non-negative. -/
theorem create_order_preserves_stock_nonneg_witness :
    allStockNonneg
      (create_order (some "c1") [⟨"apple", 2⟩] "t0" stSmall).2.products = true :=
  create_order_preserves_stock_nonneg (some "c1") [⟨"apple", 2⟩] "t0" stSmall
    (by decide) (by decide)

/-- C3 fails on the code: a fully successful `create_order` call commits
the order row with status `Pending` — the status is never updated to
`Completed`.  Concretely, `c1` buys two apples from `stSmall`, the call
succeeds, and the single persisted order row has status `Pending`. -/
theorem create_order_commits_pending_not_completed :
    (create_order (some "c1") [⟨"apple", 2⟩] "t0" stSmall).1.isOk = true ∧
    (create_order (some "c1") [⟨"apple", 2⟩] "t0" stSmall).2.orders.map
      Order.Status = ["Pending"] ∧
    (("Pending" : String) == "Completed") = false :=
  ⟨rfl, rfl, rfl⟩

/-- C3 amended: on a fully successful `create_order` call the transaction
commits with the persisted order row still in status `Pending` (it is
never updated to `Completed`), and the success dict returns the order id
(`lastrowid`, i.e. the `nextOrderId` at entry) and the customer id — the
`ok` result also carries the total and the per-line summary by
construction. -/
theorem create_order_success_persists_pending (st : Store) (c : String)
    (now : String) (items : List OrderItem)
    (h : (create_order (some c) items now st).1.isOk = true) :
    (⟨st.nextOrderId, c, now, "Pending"⟩ : Order) ∈
      (create_order (some c) items now st).2.orders ∧
    (create_order (some c) items now st).1.orderId? = some st.nextOrderId ∧
    (create_order (some c) items now st).1.customerId? = some c := by
  by_cases hc : c = ""
  · simp [create_order, hc, ToolResult.isOk] at h
  · cases hp : processLines st.nextOrderId items (openPendingOrder c now st) 0 [] with
    | error m => simp [create_order, hc, hp, ToolResult.isOk] at h
    | ok v =>
      obtain ⟨st2, total2, lines2⟩ := v
      obtain ⟨ho, -, -⟩ := processLines_ok_spec st.nextOrderId items
        (openPendingOrder c now st) 0 [] st2 total2 lines2 hp
      refine ⟨?_, ?_, ?_⟩
      · have : (⟨st.nextOrderId, c, now, "Pending"⟩ : Order) ∈ st2.orders := by
          rw [ho]
          simp [openPendingOrder]
        simpa [create_order, hc, hp] using this
      · simp [create_order, hc, hp, ToolResult.orderId?]
      · simp [create_order, hc, hp, ToolResult.customerId?]

/-- Evaluation of the amended C3 theorem on the concrete purchase of two
apples by `c1`. -/
theorem create_order_success_persists_pending_witness :
    (⟨stSmall.nextOrderId, "c1", "t0", "Pending"⟩ : Order) ∈
      (create_order (some "c1") [⟨"apple", 2⟩] "t0" stSmall).2.orders ∧
    (create_order (some "c1") [⟨"apple", 2⟩] "t0" stSmall).1.orderId? =
      some stSmall.nextOrderId ∧
    (create_order (some "c1") [⟨"apple", 2⟩] "t0" stSmall).1.customerId? =
      some "c1" :=
  create_order_success_persists_pending stSmall "c1" "t0" [⟨"apple", 2⟩] (by rfl)

/-- C7: on a successful `create_order` call, the returned total equals the
sum over the newly inserted order lines of quantity times captured unit
price, exactly — the accumulation is the fixed-precision (rational-exact)
Decimal sum of tools.py line 207, so no rounding drift is possible. -/
theorem create_order_total_exact (st : Store) (c now : String)
    (items : List OrderItem) (newD : List OrderDetail)
    (hok : (create_order (some c) items now st).1.isOk = true)
    (hd : (create_order (some c) items now st).2.orderDetails =
      st.orderDetails ++ newD) :
    (create_order (some c) items now st).1.total? =
      some ((newD.map (fun d => (d.Quantity : ℚ) * d.UnitPrice)).sum) := by
  by_cases hc : c = ""
  · simp [create_order, hc, ToolResult.isOk] at hok
  · cases hp : processLines st.nextOrderId items (openPendingOrder c now st) 0 [] with
    | error m => simp [create_order, hc, hp, ToolResult.isOk] at hok
    | ok v =>
      obtain ⟨st2, total2, lines2⟩ := v
      obtain ⟨-, -, newD0, hdet, -, htot⟩ := processLines_ok_spec st.nextOrderId
        items (openPendingOrder c now st) 0 [] st2 total2 lines2 hp
      have hdet' : st2.orderDetails = st.orderDetails ++ newD0 := by
        simpa [openPendingOrder] using hdet
      have hd' : st.orderDetails ++ newD = st.orderDetails ++ newD0 := by
        rw [← hdet']
        simpa [create_order, hc, hp] using hd.symm
      have : newD = newD0 := List.append_cancel_left hd'
      subst this
      simp [create_order, hc, hp, ToolResult.total?, htot]

/-- Evaluation of the exactness theorem: the two-apple purchase inserts
one order line of quantity 2 at captured unit price 19.99, and the
returned total is exactly the sum over that line. -/
theorem create_order_total_exact_witness :
    (create_order (some "c1") [⟨"apple", 2⟩] "t0" stSmall).1.total? =
      some ((([⟨1, 1, 2, 19.99⟩] : List OrderDetail).map
        (fun d => (d.Quantity : ℚ) * d.UnitPrice)).sum) :=
  create_order_total_exact stSmall "c1" "t0" [⟨"apple", 2⟩] [⟨1, 1, 2, 19.99⟩]
    (by rfl) (by rfl)

/-- C8: a `check_order_status` call for an order id that matches no order
of the requesting customer — the order does not exist, or belongs to
another customer — returns the structured not-found error, which carries
no order details; the function is pure, so the store is untouched. -/
theorem check_order_status_not_found (st : Store) (c : String) (oid : Nat)
    (hc : c ≠ "")
    (h : ∀ o ∈ st.orders, ¬(o.OrderId = oid ∧ o.CustomerId = c)) :
    check_order_status (some c) oid st = .ok (.notFound c oid) := by
  have hfind : st.orders.find?
      (fun o => o.OrderId == oid && o.CustomerId == c) = none := by
    rw [List.find?_eq_none]
    intro o ho hcontra
    exact h o ho (by simpa using hcontra)
  simp [check_order_status, hc, hfind]

/-- Evaluation of the not-found theorem: customer `me` asks about order 7
of `stOther`, which belongs to customer `other`; the structured not-found
error comes back without the order details. -/
theorem check_order_status_not_found_witness :
    check_order_status (some "me") 7 stOther = .ok (.notFound "me" 7) :=
  check_order_status_not_found stOther "me" 7 (by decide) (by decide)

/-- C9: against a catalog with no in-stock product, the three price
aggregates of the `search_products` metadata come back NULL, and the
conversion `float(None)` raises an uncaught `TypeError` instead of
returning a structured success-or-error dict. -/
theorem search_products_no_stock_raises (st : Store)
    (query category : Option String) (min_price max_price : Option ℚ)
    (h : ∀ p ∈ st.products, p.Quantity ≤ 0) :
    price_stats ((st.products.filter (fun p => 0 < p.Quantity)).map
      (·.Price)) = none ∧
    search_products query category min_price max_price st =
      .error "TypeError: float() argument must be a string or a real number, not NoneType" := by
  have hfilter : st.products.filter (fun p => 0 < p.Quantity) = [] := by
    rw [List.filter_eq_nil_iff]
    intro p hp
    simpa using not_lt.mpr (h p hp)
  refine ⟨by rw [hfilter]; rfl, ?_⟩
  simp [search_products, hfilter, price_stats]

/-- Evaluation of the C9 theorem on the all-out-of-stock catalog
`stNoStock`. -/
theorem search_products_no_stock_raises_witness :
    price_stats ((stNoStock.products.filter (fun p => 0 < p.Quantity)).map
      (·.Price)) = none ∧
    search_products none none none none stNoStock =
      .error "TypeError: float() argument must be a string or a real number, not NoneType" :=
  search_products_no_stock_raises stNoStock none none none none (by decide)

/-- C10: routing classifies a tool-calling assistant message by its first
tool call only — it routes to the sensitive node exactly when the first
call is `create_order`, and the remaining tool calls of the message have
no effect on the decision. -/
theorem route_tools_first_call_decides (c : String) (rest rest' : List String) :
    (route_tools (c :: rest) = .sensitiveTools ↔ c = "create_order") ∧
    route_tools (c :: rest) = route_tools (c :: rest') := by
  refine ⟨?_, rfl⟩
  by_cases hc : c = "create_order"
  · simp [route_tools, sensitive_tool_names, hc]
  · simp [route_tools, sensitive_tool_names, hc]

/-- C6 fails on the code: the action name `frobnicate` is outside the
five-tool vocabulary, yet `route_tools` classifies the turn as safe and
routes it to the safe tool node — no fatal classification error exists in
the routing function. -/
theorem route_tools_unknown_name_cex :
    (tool_vocabulary.contains "frobnicate") = false ∧
    route_tools ["frobnicate"] = .safeTools :=
  ⟨rfl, rfl⟩

/-- C6 amended: a proposed action whose name is outside the fixed
vocabulary of the five tools is routed to the safe tool node (it is never
classified as sensitive, so the order-creation transaction is not opened);
no classification error is raised for the turn. -/
theorem route_tools_unknown_name_routes_safe (c : String)
    (rest : List String) (h : c ∉ tool_vocabulary) :
    route_tools (c :: rest) = .safeTools := by
  have hs : c ∉ sensitive_tool_names := by
    intro hmem
    apply h
    have : c = "create_order" := by simpa [sensitive_tool_names] using hmem
    simp [tool_vocabulary, this]
  simp [route_tools, hs]

/-- Evaluation of the amended C6 theorem at the unknown action name
`frobnicate`. -/
theorem route_tools_unknown_name_routes_safe_witness :
    route_tools ["frobnicate"] = .safeTools :=
  route_tools_unknown_name_routes_safe "frobnicate" [] (by decide)

/-- In any run, the log of sensitive actions that reached the Tool
Execution Layer can only grow at an `approve` resume event. -/
theorem reaches_growth_has_approve :
    ∀ {s : SysState} {es : List Event} {s' : SysState}, Reaches s es s' →
    s.executed.length < s'.executed.length →
    Event.resume Signal.approve ∈ es := by
  intro s es s' hr
  induction hr with
  | nil s0 =>
    intro hgrow
    exact absurd hgrow (lt_irrefl _)
  | cons hstep hrest ih =>
    intro hgrow
    cases hstep with
    | safe calls p st log hroute => exact List.mem_cons_of_mem _ (ih hgrow)
    | endTurn calls p st log hroute => exact List.mem_cons_of_mem _ (ih hgrow)
    | suspend calls p st log hroute => exact List.mem_cons_of_mem _ (ih hgrow)
    | deny p st log => exact List.mem_cons_of_mem _ (ih hgrow)
    | approve p st log => exact List.mem_cons_self _ _

/-- C4: in every run of the orchestrator, the sensitive `create_order`
action reaches the Tool Execution Layer only after an `Approve` signal
was received — whenever the log of executed sensitive actions grew during
a run, an `Approve` resume event occurs among its events — and a `Deny`
resume step leaves the store exactly as it was when the gate suspended,
executing nothing. -/
theorem gate_guards_sensitive_execution (s s' t t' : SysState)
    (es : List Event) (hr : Reaches s es s')
    (hgrow : s.executed.length < s'.executed.length)
    (hdeny : Step t (.resume .deny) t') :
    Event.resume Signal.approve ∈ es ∧
    t'.store = t.store ∧ t'.executed = t.executed := by
  refine ⟨reaches_growth_has_approve hr hgrow, ?_, ?_⟩ <;> cases hdeny <;> rfl

/-- Evaluation of the gate theorem on a concrete one-step run: the gate is
awaiting confirmation of `pendSmall`, the single event is an `Approve`
(which executes the pending order and grows the log), and a `Deny` from
the same suspended state keeps store and log unchanged. -/
theorem gate_guards_sensitive_execution_witness :
    Event.resume Signal.approve ∈ [Event.resume Signal.approve] ∧
    (⟨.idle, stSmall, []⟩ : SysState).store =
      (⟨.awaiting pendSmall, stSmall, []⟩ : SysState).store ∧
    (⟨.idle, stSmall, []⟩ : SysState).executed =
      (⟨.awaiting pendSmall, stSmall, []⟩ : SysState).executed :=
  gate_guards_sensitive_execution
    ⟨.awaiting pendSmall, stSmall, []⟩
    ⟨.idle, (create_order pendSmall.customerId pendSmall.items pendSmall.now
      stSmall).2, [] ++ [pendSmall]⟩
    ⟨.awaiting pendSmall, stSmall, []⟩
    ⟨.idle, stSmall, []⟩
    [Event.resume Signal.approve]
    (Reaches.cons (Step.approve pendSmall stSmall []) (Reaches.nil _))
    (by decide)
    (Step.deny pendSmall stSmall [])
